import Mathlib

/-!
Verification development for the Contentomation pipeline (src/main.py).

The Python source is shallowly embedded:
* Python `str` is Lean `String`; Python lists are Lean `List`.
* Python `dict`s are embedded as association lists `List (String × α)`
  with Python semantics: insertion order is observable, lookup returns the
  (unique) binding, and assignment to an existing key updates the value in
  place while keeping the key's position (Python 3.7+ behaviour).
* The two external collaborators (the DDGS search provider and the Grok
  classification service) are passed in as explicit oracles describing
  their observable outcome; an exception raised by a collaborator or
  during JSON parsing is the `none` / `.error` outcome, and the catching
  `try/except` blocks of the source become `match`es on that outcome.
* The classification service's successfully parsed JSON value is an
  arbitrary `JVal` (the embedding of a Python value produced by
  `json.loads`), because `grok_process_raw_data` performs no schema
  validation on it.
-/

namespace Contentomation

/-- A normalized search result, `{'title': ..., 'snippet': ...}` in the
source. -/
structure Hit where
  title : String
  snippet : String
deriving DecidableEq, Repr

/-- A user profile `{'id': ..., 'interest': ...}` from the inbound request
(spec §3 `UserProfile`: both fields are strings). -/
structure Profile where
  id : String
  interest : String
deriving DecidableEq, Repr

/-- Embedding of a Python value produced by `json.loads`: the
classification response is parsed without schema validation, so any JSON
value can flow out of `grok_process_raw_data`. -/
inductive JVal where
  | null : JVal
  | bool (b : Bool) : JVal
  | num (n : Int) : JVal
  | str (s : String) : JVal
  | arr (xs : List JVal) : JVal
  | obj (kvs : List (String × JVal)) : JVal

/-- Whether a parsed JSON value is a Python `dict` (`.values()` exists). -/
def JVal.isObj : JVal → Bool
  | .obj _ => true
  | _ => false

/-- The key list of a parsed JSON object (empty for non-objects). -/
def jKeys : JVal → List String
  | .obj kvs => kvs.map Prod.fst
  | _ => []

/-! Section: Python dict primitives on association lists -/

/-- Python `d[k]` / `d.get(k)`: value of the binding of `k`, if any. -/
def lookup {α : Type} (d : List (String × α)) (k : String) : Option α :=
  match d with
  | [] => none
  | (k1, v) :: rest => if k1 = k then some v else lookup rest k

/-- Python `k in d`. -/
def containsKey {α : Type} (d : List (String × α)) (k : String) : Bool :=
  match d with
  | [] => false
  | (k1, _) :: rest => k1 = k || containsKey rest k

/-- Python `d[k] = v`: update in place if `k` is bound (keeping its
position, as Python dicts do), otherwise append a new binding. -/
def setKey {α : Type} (d : List (String × α)) (k : String) (v : α) :
    List (String × α) :=
  match d with
  | [] => [(k, v)]
  | (k1, v1) :: rest =>
    if k1 = k then (k, v) :: rest else (k1, v1) :: setKey rest k v

/-- The key list of a dict, in insertion order. -/
def keysList {α : Type} (d : List (String × α)) : List String :=
  d.map Prod.fst

/-! Section: Result Fetcher, `web_search` (src/main.py lines 36-48) -/

/-- A raw record from the search provider; only the three fields the
source reads are modelled, each possibly absent. -/
structure RawRecord where
  title : Option String
  body : Option String
  snippet : Option String
deriving DecidableEq, Repr

/-- Embeds `{'title': r['title'], 'snippet': r.get('body', r.get('snippet', ''))}`:
`r['title']` raises `KeyError` when absent (`none` here), and the snippet
falls back body → snippet → empty string. -/
def normalizeRecord (r : RawRecord) : Option Hit :=
  match r.title with
  | none => none
  | some t => some ⟨t, r.body.getD (r.snippet.getD "")⟩

/-- Normalizes every record; a `KeyError` on any record aborts the whole
list comprehension (the exception is caught by `web_search`). -/
def normAll : List RawRecord → Option (List Hit)
  | [] => some []
  | r :: rs =>
    match normalizeRecord r with
    | none => none
    | some h =>
      match normAll rs with
      | none => none
      | some hs => some (h :: hs)

/-- Embeds `web_search`: the provider oracle maps (query, num_results) to either
an exception (`.error`) or a list of raw records; any fault — provider
exception or a record missing its title — lands in the `except` branch
and yields `[]`. The function is total: no exception escapes. -/
def web_search (provider : String → Nat → Except String (List RawRecord))
    (query : String) (num_results : Nat) : List Hit :=
  match provider query num_results with
  | .error _ => []
  | .ok results =>
    match normAll results with
    | none => []
    | some hits => hits

/-! Section: Categorizer, `grok_process_raw_data` (src/main.py lines 50-77) -/

/-- The fallback CategorizedResult
`{'productivity': [], 'health': [], 'creativity': []}` as a parsed JSON
value. -/
def fallbackJ : JVal :=
  .obj [("productivity", .arr []), ("health", .arr []), ("creativity", .arr [])]

/-- Embeds `grok_process_raw_data`: empty input short-circuits to the fallback
before the service oracle is consulted; otherwise the oracle outcome is
either an exception / non-parseable response (`none`, the `except`
branch, again the fallback) or a successfully parsed JSON value
(`some v`), which is returned unchanged — the source does no schema
validation on it. -/
def grok_process_raw_data (serviceResult : Option JVal)
    (raw_data : List Hit) : JVal :=
  if raw_data.isEmpty then fallbackJ
  else
    match serviceResult with
    | none => fallbackJ
    | some v => v

/-! Section: Output Projector, `generate_outputs` (src/main.py lines 79-117),
typed layer: the categorized dict decoded into hit buckets. -/

/-- The categorized dict as the projector consumes it: an ordered
association of labels to hit lists. -/
abbrev Buckets := List (String × List Hit)

/-- Embeds `all_hacks = [h for hacks in categorized.values() for h in hacks]`. -/
def flattenHits (categorized : Buckets) : List Hit :=
  (categorized.map Prod.snd).flatten

/-- Embeds `outputs['newsletter']`: snippets of the first 5 flattened hits. -/
def newsletter (categorized : Buckets) : List String :=
  ((flattenHits categorized).take 5).map Hit.snippet

/-- Embeds a prefix test used by `'tool' in h['snippet'].lower()`: case-insensitive substring test,
with lowercasing applied to the snippet. -/
def isPre : List Char → List Char → Bool
  | [], _ => true
  | _ :: _, [] => false
  | a :: as, b :: bs => a == b && isPre as bs

/-- Whether `needle` occurs as a contiguous substring of `hay`. -/
def hasSub (needle : List Char) : List Char → Bool
  | [] => needle.isEmpty
  | c :: rest => isPre needle (c :: rest) || hasSub needle rest

/-- The tool_vault filter predicate of the source. -/
def containsTool (h : Hit) : Bool :=
  hasSub "tool".toList (h.snippet.toList.map Char.toLower)

/-- Embeds `outputs['tool_vault']`: per bucket, the hits whose snippet mentions
"tool" (the nested comprehension filters while flattening). -/
def tool_vault (categorized : Buckets) : List Hit :=
  (categorized.map (fun kv => kv.2.filter containsTool)).flatten

/-- Embeds `outputs['forum']`: titles of the first 3 raw hits. -/
def forum (raw_data : List Hit) : List String :=
  (raw_data.take 3).map Hit.title

/-- The base knowledge dict
`{k: [h['snippet'] for h in v] for k, v in categorized.items()}`. -/
def baseKnowledge (categorized : Buckets) : List (String × List String) :=
  categorized.map (fun kv => (kv.1, kv.2.map Hit.snippet))

/-- The personalization loop: for each profile in order, if its interest
is a key of the dict as it currently stands, bind the profile's id to the
current value of that key. -/
def applyProfiles (kb : List (String × List String)) :
    List Profile → List (String × List String)
  | [] => kb
  | p :: rest =>
    match lookup kb p.interest with
    | some v => applyProfiles (setKey kb p.id v) rest
    | none => applyProfiles kb rest

/-- Embeds `outputs['coaching_bot']['knowledge_base']` (the `if user_profiles:`
guard only skips the loop on an empty list, which the fold does too). -/
def coaching_bot (categorized : Buckets) (user_profiles : List Profile) :
    List (String × List String) :=
  applyProfiles (baseKnowledge categorized) user_profiles

/-- One workshop session record `{'theme': k, 'materials': ...}`. -/
structure Session where
  theme : String
  materials : List String
deriving DecidableEq, Repr

/-- Embeds `outputs['workshops']['sessions']`: one session per dict entry, with
the snippets of the first two hits of that bucket. -/
def workshops (categorized : Buckets) : List Session :=
  categorized.map (fun kv => ⟨kv.1, (kv.2.take 2).map Hit.snippet⟩)

/-- The OutputBundle: the five views assembled by `generate_outputs`. -/
structure Outputs where
  newsletter : List String
  tool_vault : List Hit
  forum : List String
  coaching_bot : List (String × List String)
  workshops : List Session
deriving DecidableEq, Repr

/-- Embeds `generate_outputs` on a decoded categorized dict: assembles the five
views. The outbound relay happens after assembly and is modelled by
`generate_outputs_relay` below. -/
def generate_outputs (categorized : Buckets) (raw_data : List Hit)
    (user_profiles : List Profile) : Outputs where
  newsletter := newsletter categorized
  tool_vault := tool_vault categorized
  forum := forum raw_data
  coaching_bot := coaching_bot categorized user_profiles
  workshops := workshops categorized

/-! Section: outbound relay (src/main.py lines 109-116) -/

/-- What the relay step logged: no target configured, a successful POST,
or a caught POST failure. -/
inductive RelayLog where
  | noTarget : RelayLog
  | posted : RelayLog
  | postFailed (msg : String) : RelayLog
deriving DecidableEq, Repr

/-- Embeds `generate_outputs` including the optional webhook relay: if a target
is configured the bundle is POSTed once (`postOutcome` is the oracle for
that call); the `try/except` only logs the outcome, and the already
assembled `outputs` dict is returned in every case. -/
def generate_outputs_relay (relayTarget : Option String)
    (postOutcome : Except String Unit) (categorized : Buckets)
    (raw_data : List Hit) (user_profiles : List Profile) :
    Outputs × RelayLog :=
  let outputs := generate_outputs categorized raw_data user_profiles
  match relayTarget with
  | none => (outputs, .noTarget)
  | some _ =>
    match postOutcome with
    | .ok _ => (outputs, .posted)
    | .error e => (outputs, .postFailed e)

/-! Section: dynamic boundary. Here `generate_outputs` consumes whatever
`grok_process_raw_data` returned. A non-dict value raises
`AttributeError` at `categorized.values()`; a dict whose entries do not
decode as hit lists raises while the comprehensions subscript them. Both
escape `generate_outputs` (it has no handler) and surface as the
endpoint's error response. -/

/-- Reads a parsed JSON value as a hit record; the projector subscripts
`h['title']`/`h['snippet']`, so both must be string fields. -/
def decodeHit (v : JVal) : Option Hit :=
  match v with
  | .obj kvs =>
    match lookup kvs "title", lookup kvs "snippet" with
    | some (.str t), some (.str s) => some ⟨t, s⟩
    | _, _ => none
  | _ => none

/-- Reads a parsed JSON value as a list of hit records. -/
def decodeHits (v : JVal) : Option (List Hit) :=
  match v with
  | .arr xs =>
    xs.foldr
      (fun x acc =>
        match decodeHit x, acc with
        | some h, some hs => some (h :: hs)
        | _, _ => none)
      (some [])
  | _ => none

/-- Reads a parsed JSON object's entries as hit buckets. -/
def decodeBuckets : List (String × JVal) → Option Buckets
  | [] => some []
  | (k, v) :: rest =>
    match decodeHits v, decodeBuckets rest with
    | some hs, some bs => some ((k, hs) :: bs)
    | _, _ => none

/-- Embeds `generate_outputs` applied to the raw categorizer output: a non-dict
value raises (`AttributeError` on `.values()`), a dict with entries that
are not hit lists raises while being consumed, and a well-formed dict is
projected by the typed `generate_outputs`. -/
def generate_outputs_dyn (categorized : JVal) (raw_data : List Hit)
    (user_profiles : List Profile) : Except String Outputs :=
  match categorized with
  | .obj kvs =>
    match decodeBuckets kvs with
    | some buckets => .ok (generate_outputs buckets raw_data user_profiles)
    | none => .error "TypeError"
  | _ => .error "AttributeError"

/-! Section: inbound endpoint, `run_automation_cycle` (src/main.py lines 119-137) -/

/-- The endpoint's response: the serialized OutputBundle with status 200,
or `{'error': msg}` with status 500 from the top-level handler. -/
inductive CycleResponse where
  | success (outputs : Outputs) : CycleResponse
  | failure (msg : String) : CycleResponse

/-- Whether the endpoint answered with the error object. -/
def CycleResponse.isFailure : CycleResponse → Bool
  | .failure _ => true
  | .success _ => false

/-- The fixed search query of the endpoint. -/
def theQuery : String :=
  "latest AI life hacks for productivity health creativity site:reddit.com OR x.com"

/-- Embeds `run_automation_cycle`: fetch, categorize, project; any exception the
projector raises is caught by the endpoint's `try/except` and answered as
the error object. -/
def run_automation_cycle
    (provider : String → Nat → Except String (List RawRecord))
    (serviceResult : Option JVal) (user_profiles : List Profile) :
    CycleResponse :=
  let raw_data := web_search provider theQuery 10
  let categorized := grok_process_raw_data serviceResult raw_data
  match generate_outputs_dyn categorized raw_data user_profiles with
  | .ok outputs => .success outputs
  | .error msg => .failure msg

/-! Section: claim-side definitions (written from the specification's
words, to be compared with the source embedding) and concrete instances
used to settle claims. -/

/-- Spec-side newsletter flatten order, as the specification words it:
fixed bucket-label order productivity, health, creativity, regardless of
the dict's own insertion order. -/
def newsletterClaimed (categorized : Buckets) : List String :=
  (((((lookup categorized "productivity").getD []) ++
        ((lookup categorized "health").getD []) ++
        ((lookup categorized "creativity").getD [])).take 5).map Hit.snippet)

/-- Boolean membership of a string in a list of strings. -/
def memB (ks : List String) (k : String) : Bool :=
  match ks with
  | [] => false
  | k1 :: rest => k1 = k || memB rest k

/-- Appends a key to a key list unless it is already there. -/
def addKeyOnce (ks : List String) (k : String) : List String :=
  if memB ks k then ks else ks ++ [k]

/-- Spec-side key dynamics of the personalization loop (claim C9's
words): starting from the mapping's keys, each profile whose interest is
a key of the accumulating key list contributes its own id as a key. -/
def keyModel (ks : List String) : List Profile → List String
  | [] => ks
  | p :: rest =>
    if memB ks p.interest then keyModel (addKeyOnce ks p.id) rest
    else keyModel ks rest

/-- A classification response that parses to a JSON object carrying an
extra fourth key. -/
def vExtra : JVal :=
  .obj [("productivity", .arr []), ("health", .arr []), ("creativity", .arr []),
    ("bonus", .arr [])]

/-- A classification response that parses to a JSON object missing two of
the three expected keys. -/
def vMissing : JVal := .obj [("productivity", .arr [])]

/-- A one-element raw input, making the categorizer consult the service. -/
def oneHit : Hit := ⟨"t", "s"⟩

/-- The categorized dict decoded from `vExtra`. -/
def exBonusBuckets : Buckets :=
  [("productivity", []), ("health", []), ("creativity", []), ("bonus", [])]

/-- A well-formed three-label categorized dict whose insertion order is
not the standard label order. -/
def exSwapBuckets : Buckets :=
  [("health", [⟨"A", "a"⟩]), ("productivity", [⟨"B", "b"⟩]), ("creativity", [])]

/-- A standard-order categorized dict with one productivity hit. -/
def exStdBuckets : Buckets :=
  [("productivity", [⟨"T", "s1"⟩]), ("health", []), ("creativity", [])]

/-- The specification's worked scenario: one hit whose snippet mentions a
tool, in the productivity bucket. -/
def exToolBuckets : Buckets :=
  [("productivity", [⟨"X", "Great tool for focus"⟩]), ("health", []),
    ("creativity", [])]

/-- Profiles where the second profile's interest is the first profile's
id rather than a category label. -/
def exChainProfiles : List Profile :=
  [⟨"u1", "productivity"⟩, ⟨"u2", "u1"⟩]

/-- Profiles exercising both the overwrite of a category-label key (a
profile whose id is "productivity") and chained id matching. -/
def exOverwriteProfiles : List Profile :=
  [⟨"productivity", "health"⟩, ⟨"u1", "productivity"⟩, ⟨"u2", "u1"⟩]

/-- Profiles with fresh, pairwise distinct ids that never reappear as
interests: one matching interest and one unmatched interest. -/
def exGoodProfiles : List Profile :=
  [⟨"u1", "productivity"⟩, ⟨"u2", "gardening"⟩]

/-- A provider oracle that always succeeds with one well-formed record. -/
def okProvider : String → Nat → Except String (List RawRecord) :=
  fun _ _ => .ok [⟨some "T", some "B", none⟩]

/-- A provider oracle whose call raises. -/
def errProvider : String → Nat → Except String (List RawRecord) :=
  fun _ _ => .error "network"

/-! Section: general lemmas about the dict primitives and list
plumbing. -/

/-- Equation lemma: lookup on the empty dict. -/
theorem lookup_nil {α : Type} (k : String) :
    lookup ([] : List (String × α)) k = none := rfl

/-- Equation lemma: lookup on a cons. -/
theorem lookup_cons {α : Type} (k1 : String) (v : α) (rest : List (String × α))
    (k : String) :
    lookup ((k1, v) :: rest) k = if k1 = k then some v else lookup rest k := rfl

/-- Equation lemma: key presence in the empty dict. -/
theorem containsKey_nil {α : Type} (k : String) :
    containsKey ([] : List (String × α)) k = false := rfl

/-- Equation lemma: key presence in a cons. -/
theorem containsKey_cons {α : Type} (k1 : String) (v : α)
    (rest : List (String × α)) (k : String) :
    containsKey ((k1, v) :: rest) k = (decide (k1 = k) || containsKey rest k) :=
  rfl

/-- Equation lemma: assignment into the empty dict. -/
theorem setKey_nil {α : Type} (k : String) (v : α) :
    setKey ([] : List (String × α)) k v = [(k, v)] := rfl

/-- Equation lemma: assignment into a cons. -/
theorem setKey_cons {α : Type} (k1 : String) (v1 : α)
    (rest : List (String × α)) (k : String) (v : α) :
    setKey ((k1, v1) :: rest) k v
      = if k1 = k then (k, v) :: rest else (k1, v1) :: setKey rest k v := rfl

/-- Equation lemma: key list of the empty dict. -/
theorem keysList_nil {α : Type} :
    keysList ([] : List (String × α)) = [] := rfl

/-- Equation lemma: key list of a cons. -/
theorem keysList_cons {α : Type} (k1 : String) (v : α)
    (rest : List (String × α)) :
    keysList ((k1, v) :: rest) = k1 :: keysList rest := rfl

/-- Equation lemma: base knowledge of the empty dict. -/
theorem baseKnowledge_nil : baseKnowledge [] = [] := rfl

/-- Equation lemma: base knowledge of a cons. -/
theorem baseKnowledge_cons (k1 : String) (v : List Hit) (rest : Buckets) :
    baseKnowledge ((k1, v) :: rest)
      = (k1, v.map Hit.snippet) :: baseKnowledge rest := rfl

/-- Equation lemma: boolean membership in a cons. -/
theorem memB_cons (k1 k : String) (rest : List String) :
    memB (k1 :: rest) k = (decide (k1 = k) || memB rest k) := rfl

/-- Presence of a key is the same as the lookup succeeding. -/
theorem containsKey_eq_isSome_lookup {α : Type} (d : List (String × α))
    (k : String) : containsKey d k = (lookup d k).isSome := by
  induction d with
  | nil => rfl
  | cons kv rest ih =>
    obtain ⟨k1, v⟩ := kv
    by_cases h : k1 = k <;> simp [containsKey_cons, lookup_cons, h, ih]

/-- Lookup after assignment, at the assigned key. -/
theorem lookup_setKey_self {α : Type} (d : List (String × α)) (k : String)
    (v : α) : lookup (setKey d k v) k = some v := by
  induction d with
  | nil => simp [setKey_nil, lookup_cons]
  | cons kv rest ih =>
    obtain ⟨k1, v1⟩ := kv
    by_cases h : k1 = k <;> simp [setKey_cons, lookup_cons, h, ih]

/-- Lookup after assignment, at a different key. -/
theorem lookup_setKey_ne {α : Type} (d : List (String × α)) {k1 k : String}
    (h : k1 ≠ k) (v : α) : lookup (setKey d k1 v) k = lookup d k := by
  induction d with
  | nil => simp [setKey_nil, lookup_cons, lookup_nil, h]
  | cons kv rest ih =>
    obtain ⟨ka, va⟩ := kv
    by_cases h2 : ka = k1
    · subst h2; simp [setKey_cons, lookup_cons, h]
    · by_cases h3 : ka = k <;>
        simp [setKey_cons, lookup_cons, h2, h3, Ne.symm h, ih]

/-- Key presence after assignment. -/
theorem containsKey_setKey {α : Type} (d : List (String × α)) (k1 k : String)
    (v : α) :
    containsKey (setKey d k1 v) k = (decide (k1 = k) || containsKey d k) := by
  induction d with
  | nil => simp [setKey_nil, containsKey_cons, containsKey_nil]
  | cons kv rest ih =>
    obtain ⟨ka, va⟩ := kv
    by_cases h2 : ka = k1
    · subst h2; simp [setKey_cons, containsKey_cons]
    · simp [setKey_cons, containsKey_cons, h2, ih, Bool.or_left_comm]

/-- Key presence is membership in the key list. -/
theorem containsKey_eq_memB {α : Type} (d : List (String × α)) (k : String) :
    containsKey d k = memB (keysList d) k := by
  induction d with
  | nil => rfl
  | cons kv rest ih =>
    obtain ⟨k1, v⟩ := kv
    simp [containsKey_cons, keysList_cons, memB_cons, ih]

/-- Assignment updates the key list exactly as `addKeyOnce` does. -/
theorem keysList_setKey {α : Type} (d : List (String × α)) (k : String)
    (v : α) : keysList (setKey d k v) = addKeyOnce (keysList d) k := by
  induction d with
  | nil => simp [setKey_nil, keysList_cons, keysList_nil, addKeyOnce, memB]
  | cons kv rest ih =>
    obtain ⟨k1, v1⟩ := kv
    by_cases h : k1 = k
    · subst h; simp [setKey_cons, keysList_cons, addKeyOnce, memB_cons]
    · by_cases hc : memB (keysList rest) k <;>
        simp [setKey_cons, keysList_cons, addKeyOnce, memB_cons, h, hc, ih]

/-- The base knowledge dict has the categorized dict's keys. -/
theorem keysList_baseKnowledge (c : Buckets) :
    keysList (baseKnowledge c) = keysList c := by
  induction c with
  | nil => rfl
  | cons kv rest ih =>
    obtain ⟨k1, v⟩ := kv
    simpa [baseKnowledge_cons, keysList_cons] using ih

/-- The base knowledge value at a key is the snippet list of that
bucket. -/
theorem lookup_baseKnowledge (c : Buckets) (k : String) :
    lookup (baseKnowledge c) k = (lookup c k).map (List.map Hit.snippet) := by
  induction c with
  | nil => rfl
  | cons kv rest ih =>
    obtain ⟨k1, v⟩ := kv
    by_cases h : k1 = k
    · simp [baseKnowledge_cons, lookup_cons, h]
    · simpa [baseKnowledge_cons, lookup_cons, h] using ih

/-- Filtering each chunk and flattening is filtering the flattened
list. -/
theorem flatten_map_filter {α : Type} (p : α → Bool) (ls : List (List α)) :
    (ls.map (List.filter p)).flatten = ls.flatten.filter p := by
  induction ls with
  | nil => rfl
  | cons a as ih =>
    rw [List.map_cons, List.flatten_cons, List.flatten_cons,
      List.filter_append, ih]

/-- Normalization succeeds on a record list in which every record carries
a title, and produces exactly the source's title/body-else-snippet-else-empty
mapping. -/
theorem normAll_eq_map (rs : List RawRecord) (h : ∀ r ∈ rs, r.title.isSome) :
    normAll rs
      = some (rs.map
          (fun r => ⟨r.title.getD "", r.body.getD (r.snippet.getD "")⟩)) := by
  induction rs with
  | nil => rfl
  | cons r rest ih =>
    have ht : r.title.isSome := h r (by simp)
    obtain ⟨t, hteq⟩ := Option.isSome_iff_exists.mp ht
    simp [normAll, normalizeRecord, hteq,
      ih (fun x hx => h x (by simp [hx]))]

/-- Normalization of the whole list aborts when any record lacks a
title (the `KeyError` of `r['title']`). -/
theorem normAll_eq_none (rs : List RawRecord) (r : RawRecord) (hr : r ∈ rs)
    (ht : r.title = none) : normAll rs = none := by
  induction rs with
  | nil => cases hr
  | cons a rest ih =>
    rcases List.mem_cons.mp hr with rfl | hmem
    · simp [normAll, normalizeRecord, ht]
    · cases hna : normalizeRecord a <;> simp [normAll, hna, ih hmem]

/-- Equation lemma: the personalization loop on no profiles. -/
theorem applyProfiles_nil (kb : List (String × List String)) :
    applyProfiles kb [] = kb := rfl

/-- Equation lemma: one step of the personalization loop. -/
theorem applyProfiles_cons (kb : List (String × List String)) (p : Profile)
    (rest : List Profile) :
    applyProfiles kb (p :: rest)
      = match lookup kb p.interest with
        | some v => applyProfiles (setKey kb p.id v) rest
        | none => applyProfiles kb rest := rfl

/-- Equation lemma: one step of the spec-side key dynamics. -/
theorem keyModel_cons (ks : List String) (p : Profile) (rest : List Profile) :
    keyModel ks (p :: rest)
      = if memB ks p.interest then keyModel (addKeyOnce ks p.id) rest
        else keyModel ks rest := rfl

/-- The key list of the personalization loop's result is computed by the
spec-side key dynamics `keyModel`. -/
theorem keysList_applyProfiles (ps : List Profile) :
    ∀ kb : List (String × List String),
      keysList (applyProfiles kb ps) = keyModel (keysList kb) ps := by
  induction ps with
  | nil => intro kb; rfl
  | cons p rest ih =>
    intro kb
    cases hl : lookup kb p.interest with
    | none =>
      have hc : memB (keysList kb) p.interest = false := by
        rw [← containsKey_eq_memB, containsKey_eq_isSome_lookup, hl]; rfl
      simp [applyProfiles_cons, keyModel_cons, hl, hc, ih]
    | some v =>
      have hc : memB (keysList kb) p.interest = true := by
        rw [← containsKey_eq_memB, containsKey_eq_isSome_lookup, hl]; rfl
      simp [applyProfiles_cons, keyModel_cons, hl, hc, ih, keysList_setKey]

/-- The personalization loop leaves the binding of any key that is not
the id of a processed profile untouched. -/
theorem lookup_applyProfiles_not_id (ps : List Profile) :
    ∀ (kb : List (String × List String)) (k : String),
      (∀ p ∈ ps, p.id ≠ k) →
      lookup (applyProfiles kb ps) k = lookup kb k := by
  induction ps with
  | nil => intro kb k _; rfl
  | cons p rest ih =>
    intro kb k hk
    cases hl : lookup kb p.interest with
    | none =>
      simpa [applyProfiles_cons, hl] using
        ih kb k (fun q hq => hk q (List.mem_cons_of_mem _ hq))
    | some v =>
      have h1 : p.id ≠ k := hk p (List.mem_cons_self _ _)
      have h2 := ih (setKey kb p.id v) k
        (fun q hq => hk q (List.mem_cons_of_mem _ hq))
      simp [applyProfiles_cons, hl, h2, lookup_setKey_ne _ h1]

/-- Every key of the personalization loop's result was a key of the
starting dict or is the id of one of the processed profiles. -/
theorem containsKey_applyProfiles_of_true (ps : List Profile) :
    ∀ (kb : List (String × List String)) (k : String),
      containsKey (applyProfiles kb ps) k = true →
      containsKey kb k = true ∨ k ∈ ps.map Profile.id := by
  induction ps with
  | nil => intro kb k h; exact Or.inl h
  | cons p rest ih =>
    intro kb k h
    cases hl : lookup kb p.interest with
    | none =>
      rcases ih kb k (by simpa [applyProfiles_cons, hl] using h) with h1 | h2
      · exact Or.inl h1
      · exact Or.inr (by simp [h2])
    | some v =>
      rcases ih (setKey kb p.id v) k
          (by simpa [applyProfiles_cons, hl] using h) with h1 | h2
      · rw [containsKey_setKey] at h1
        by_cases he : p.id = k
        · exact Or.inr (by simp [he])
        · simp [he] at h1
          exact Or.inl h1
      · exact Or.inr (by simp [h2])

/-- Core invariant of the personalization loop: when the processed
profiles have ids that are not yet keys, are pairwise distinct, and never
reappear as interests, each profile ends up with an entry exactly when
its interest was a key of the starting dict, and the entry's value is the
starting dict's value at the interest. -/
theorem applyProfiles_value_spec (ps : List Profile) :
    ∀ kb : List (String × List String),
      (∀ p ∈ ps, containsKey kb p.id = false) →
      (∀ p ∈ ps, ∀ q ∈ ps, p.id ≠ q.interest) →
      (ps.map Profile.id).Nodup →
      ∀ p ∈ ps,
        (containsKey (applyProfiles kb ps) p.id = containsKey kb p.interest) ∧
          (∀ v, lookup kb p.interest = some v →
            lookup (applyProfiles kb ps) p.id = some v) := by
  induction ps with
  | nil => intro kb _ _ _ p hp; cases hp
  | cons p0 rest ih =>
    intro kb hno hni hnd p hp
    rw [List.map_cons, List.nodup_cons] at hnd
    have hnd1 : p0.id ∉ rest.map Profile.id := hnd.1
    have hnd2 : (rest.map Profile.id).Nodup := hnd.2
    rcases List.mem_cons.mp hp with rfl | hmem
    · cases hl : lookup kb p.interest with
      | none =>
        have hcf : containsKey kb p.interest = false := by
          rw [containsKey_eq_isSome_lookup, hl]; rfl
        refine ⟨?_, ?_⟩
        · simp only [applyProfiles_cons, hl]
          have hres : containsKey (applyProfiles kb rest) p.id = false := by
            cases hres : containsKey (applyProfiles kb rest) p.id
            · rfl
            · rcases containsKey_applyProfiles_of_true rest kb p.id hres
                with h1 | h2
              · rw [hno p (List.mem_cons_self _ _)] at h1; cases h1
              · exact absurd h2 hnd1
          rw [hres, hcf]
        · intro v hv
          exact Option.noConfusion hv
      | some v0 =>
        have hct : containsKey kb p.interest = true := by
          rw [containsKey_eq_isSome_lookup, hl]; rfl
        have hpres : lookup (applyProfiles (setKey kb p.id v0) rest) p.id
            = lookup (setKey kb p.id v0) p.id := by
          refine lookup_applyProfiles_not_id rest _ _ ?_
          intro q hq he
          exact hnd1 (he ▸ List.mem_map_of_mem Profile.id hq)
        refine ⟨?_, ?_⟩
        · simp only [applyProfiles_cons, hl]
          rw [containsKey_eq_isSome_lookup, hpres, lookup_setKey_self, hct]
          rfl
        · intro v hv
          have hvv : v0 = v := Option.some.inj hv
          subst hvv
          simp only [applyProfiles_cons, hl]
          rw [hpres, lookup_setKey_self]
    · have hniR : ∀ a ∈ rest, ∀ b ∈ rest, a.id ≠ b.interest :=
        fun a ha b hb =>
          hni a (List.mem_cons_of_mem _ ha) b (List.mem_cons_of_mem _ hb)
      cases hl : lookup kb p0.interest with
      | none =>
        simp only [applyProfiles_cons, hl]
        exact ih kb (fun q hq => hno q (List.mem_cons_of_mem _ hq)) hniR
          hnd2 p hmem
      | some v0 =>
        simp only [applyProfiles_cons, hl]
        have hne_int : p0.id ≠ p.interest :=
          hni p0 (List.mem_cons_self _ _) p (List.mem_cons_of_mem _ hmem)
        have hno2 : ∀ q ∈ rest, containsKey (setKey kb p0.id v0) q.id
            = false := by
          intro q hq
          rw [containsKey_setKey]
          have hq1 : p0.id ≠ q.id := by
            intro he
            exact hnd1 (he ▸ List.mem_map_of_mem Profile.id hq)
          simp [hq1, hno q (List.mem_cons_of_mem _ hq)]
        have ihres := ih (setKey kb p0.id v0) hno2 hniR hnd2 p hmem
        refine ⟨?_, ?_⟩
        · rw [ihres.1, containsKey_setKey]
          simp [hne_int]
        · intro v hv
          refine ihres.2 v ?_
          rw [lookup_setKey_ne _ hne_int]
          exact hv

/-! Section: the claims. -/

/-- Claim C5 (confirmed): on the empty hit sequence,
`grok_process_raw_data` returns the fallback CategorizedResult
`{'productivity': [], 'health': [], 'creativity': []}`, and the result is
the same under every classification-service behaviour — the service
oracle is never consulted, so no service response can influence it. -/
theorem claim_C5_empty_input_fallback (s1 s2 : Option JVal) :
    grok_process_raw_data s1 [] = fallbackJ ∧
      grok_process_raw_data s1 [] = grok_process_raw_data s2 [] :=
  ⟨rfl, rfl⟩

/-- Claim C7 (confirmed): for every configured-or-absent relay target and
every POST outcome, the OutputBundle component of the relay-inclusive
projector equals the pure `generate_outputs` bundle; in particular a
delivery failure produces the same bundle as a success and never fails
the operation. -/
theorem claim_C7_relay_failure_harmless (target : Option String)
    (outcome : Except String Unit) (c : Buckets) (raw : List Hit)
    (ps : List Profile) :
    (generate_outputs_relay target outcome c raw ps).1
        = generate_outputs c raw ps ∧
      ∀ e : String,
        (generate_outputs_relay target (.error e) c raw ps).1
          = (generate_outputs_relay target (.ok ()) c raw ps).1 := by
  constructor
  · cases target <;> cases outcome <;> rfl
  · intro e; cases target <;> rfl

/-- Claim C1 is refuted as stated: a classification response that parses
to a JSON object with an extra key ("bonus"), or with keys missing, is
returned unchanged by `grok_process_raw_data`, so the key set is not
always exactly the three fixed labels. -/
theorem claim_C1_counterexample :
    grok_process_raw_data (some vExtra) [oneHit] = vExtra ∧
      (jKeys (grok_process_raw_data (some vExtra) [oneHit])).contains "bonus"
          = true ∧
      ("bonus" : String) ≠ "productivity" ∧
      ("bonus" : String) ≠ "health" ∧
      ("bonus" : String) ≠ "creativity" ∧
      jKeys (grok_process_raw_data (some vMissing) [oneHit]) = ["productivity"] :=
  ⟨rfl, by decide, by decide, by decide, by decide, rfl⟩

/-- Claim C1 as amended (proved): the exactly-three-keys guarantee holds
for every service fault and for empty input — every result is either the
fallback, whose key set is exactly the three labels, or the service's
successfully parsed JSON value returned verbatim (with whatever keys that
value has). -/
theorem claim_C1_amended_key_set (s : Option JVal) (raw : List Hit) :
    grok_process_raw_data none raw = fallbackJ ∧
      jKeys fallbackJ = ["productivity", "health", "creativity"] ∧
      (grok_process_raw_data s raw = fallbackJ ∨
        ∃ v, s = some v ∧ raw ≠ [] ∧ grok_process_raw_data s raw = v) := by
  refine ⟨?_, rfl, ?_⟩
  · cases raw <;> rfl
  · cases raw with
    | nil => exact Or.inl rfl
    | cons h t =>
      cases s with
      | none => exact Or.inl rfl
      | some v => exact Or.inr ⟨v, rfl, by simp, rfl⟩

/-- Claim C3 is refuted as stated: the categorizer can hand the projector
a parsed JSON object with four keys (see `claim_C1_counterexample`), and
the workshops view then has four session records, not exactly three. The
last conjunct shows the four-key mapping actually flowing from the
categorizer through the dynamic boundary into this projection. -/
theorem claim_C3_counterexample :
    (generate_outputs exBonusBuckets [] []).workshops.length = 4 ∧
      (generate_outputs exBonusBuckets [] []).workshops.length ≠ 3 ∧
      generate_outputs_dyn (grok_process_raw_data (some vExtra) [oneHit]) [] []
        = .ok (generate_outputs exBonusBuckets [] []) :=
  ⟨rfl, by decide, rfl⟩

/-- Claim C3 as amended (proved): the workshops view has one session per
entry of the categorized mapping, in the mapping's own order, each with a
materials list of length at most 2; for a well-formed CategorizedResult
with the three labels in standard order this is exactly 3 sessions, one
per label in order, and an empty bucket still yields a session whose
materials list is empty (`List.take 2 []` is `[]`). -/
theorem claim_C3_amended_workshops (c : Buckets) (raw : List Hit)
    (ps : List Profile) (hp hh hc : List Hit) :
    (generate_outputs c raw ps).workshops.length = c.length ∧
      (generate_outputs c raw ps).workshops.map Session.theme = keysList c ∧
      (∀ s ∈ (generate_outputs c raw ps).workshops, s.materials.length ≤ 2) ∧
      (generate_outputs [("productivity", hp), ("health", hh), ("creativity", hc)]
            raw ps).workshops
        = [⟨"productivity", (hp.take 2).map Hit.snippet⟩,
            ⟨"health", (hh.take 2).map Hit.snippet⟩,
            ⟨"creativity", (hc.take 2).map Hit.snippet⟩] := by
  refine ⟨?_, ?_, ?_, rfl⟩
  · simp [generate_outputs, workshops]
  · simp [generate_outputs, workshops, keysList]
  · intro s hs
    simp only [generate_outputs, workshops, List.mem_map] at hs
    obtain ⟨kv, _, rfl⟩ := hs
    simp [List.length_take]

/-- Witness for the amended claim C3 at a concrete input: the
standard-order dict yields one session per entry, and the productivity
session's materials stay within the bound. -/
theorem claim_C3_amended_workshops_witness :
    (generate_outputs exStdBuckets [] []).workshops.length
        = exStdBuckets.length ∧
      (⟨"productivity", ["s1"]⟩ : Session).materials.length ≤ 2 := by
  have h := claim_C3_amended_workshops exStdBuckets [] [] [] [] []
  exact ⟨h.1, h.2.2.1 ⟨"productivity", ["s1"]⟩ (by decide)⟩

/-- Claim C4 is refuted as stated: a CategorizedResult whose three labels
were inserted in a non-standard order (here health before productivity,
exactly as a parsed service response could list them) is flattened by the
code in the dict's own insertion order, not in the claimed fixed
bucket-label order, so the newsletter differs from the claimed value. -/
theorem claim_C4_counterexample :
    (generate_outputs exSwapBuckets [] []).newsletter = ["a", "b"] ∧
      newsletterClaimed exSwapBuckets = ["b", "a"] ∧
      (generate_outputs exSwapBuckets [] []).newsletter
          ≠ newsletterClaimed exSwapBuckets ∧
      keysList exSwapBuckets = ["health", "productivity", "creativity"] ∧
      "productivity" ∈ keysList exSwapBuckets ∧
      "health" ∈ keysList exSwapBuckets ∧
      "creativity" ∈ keysList exSwapBuckets ∧
      (keysList exSwapBuckets).length = 3 :=
  ⟨rfl, rfl, by decide, rfl, by decide, by decide, by decide, rfl⟩

/-- Claim C4 as amended (proved): the newsletter is the snippet fields of
the first 5 hits of the flattening of all buckets in the mapping's own
insertion order (which is the claimed label order whenever the mapping
lists the three labels in standard order, as the fallback does), so its
length is at most 5 and at most the total flattened hit count. -/
theorem claim_C4_amended_newsletter (c : Buckets) (raw : List Hit)
    (ps : List Profile) (hp hh hc : List Hit) :
    (generate_outputs c raw ps).newsletter
        = ((flattenHits c).take 5).map Hit.snippet ∧
      (generate_outputs c raw ps).newsletter.length ≤ 5 ∧
      (generate_outputs c raw ps).newsletter.length ≤ (flattenHits c).length ∧
      (generate_outputs [("productivity", hp), ("health", hh), ("creativity", hc)]
            raw ps).newsletter
        = ((hp ++ hh ++ hc).take 5).map Hit.snippet := by
  refine ⟨rfl, ?_, ?_, ?_⟩
  · simp [generate_outputs, newsletter, List.length_take]
  · simp [generate_outputs, newsletter, List.length_take]
  · simp [generate_outputs, newsletter, flattenHits, List.append_assoc]

/-- Claim C6 (confirmed): the tool_vault view is exactly the filtering of
the flattened hits (full records, in flatten order) by the source's
case-insensitive "tool" substring test, and in particular every entry of
the view passes that test. -/
theorem claim_C6_tool_vault (c : Buckets) (raw : List Hit)
    (ps : List Profile) :
    (generate_outputs c raw ps).tool_vault
        = (flattenHits c).filter containsTool ∧
      ∀ h ∈ (generate_outputs c raw ps).tool_vault, containsTool h = true := by
  have key : tool_vault c = (flattenHits c).filter containsTool := by
    rw [tool_vault, flattenHits, ← flatten_map_filter, List.map_map]; rfl
  constructor
  · exact key
  · intro h hm
    have hm2 : h ∈ (flattenHits c).filter containsTool := by
      have : (generate_outputs c raw ps).tool_vault = tool_vault c := rfl
      rw [this, key] at hm
      exact hm
    exact (List.mem_filter.mp hm2).2

/-- Witness for claim C6 at the specification's worked scenario: the hit
`{title: "X", snippet: "Great tool for focus"}` is in the tool_vault view
and passes the case-insensitive "tool" test. -/
theorem claim_C6_tool_vault_witness :
    (generate_outputs exToolBuckets [] []).tool_vault
        = (flattenHits exToolBuckets).filter containsTool ∧
      containsTool ⟨"X", "Great tool for focus"⟩ = true := by
  have h := claim_C6_tool_vault exToolBuckets [] []
  exact ⟨h.1, h.2 ⟨"X", "Great tool for focus"⟩ (by decide)⟩

/-- Claim C8 (confirmed): for every query and limit, a provider fault
yields the empty sequence (and, the Lean function being total, no
exception can propagate); on success, if every raw record carries a
title, each record is normalized with the title verbatim and the snippet
taken from the body field, else the snippet field, else the empty string;
and a record missing its title (a `KeyError` inside the `try`) also
degrades the whole call to the empty sequence. -/
theorem claim_C8_web_search
    (provider : String → Nat → Except String (List RawRecord))
    (q : String) (n : Nat) :
    (∀ e, provider q n = .error e → web_search provider q n = []) ∧
      (∀ rs, provider q n = .ok rs →
        ((∀ r ∈ rs, r.title.isSome) →
            web_search provider q n
              = rs.map
                (fun r => ⟨r.title.getD "", r.body.getD (r.snippet.getD "")⟩)) ∧
          (∀ r ∈ rs, r.title = none → web_search provider q n = [])) := by
  refine ⟨?_, ?_⟩
  · intro e he; simp [web_search, he]
  · intro rs hok
    refine ⟨?_, ?_⟩
    · intro hall; simp [web_search, hok, normAll_eq_map rs hall]
    · intro r hmem ht; simp [web_search, hok, normAll_eq_none rs r hmem ht]

/-- Witness for claim C8 at concrete collaborator outcomes: a provider
exception gives the empty result, and a successful provider call with one
record (title "T", body "B", no snippet field) gives the normalized hit. -/
theorem claim_C8_web_search_witness :
    web_search errProvider "ai hacks" 3 = [] ∧
      web_search okProvider "ai hacks" 3 = [⟨"T", "B"⟩] := by
  constructor
  · exact (claim_C8_web_search errProvider "ai hacks" 3).1 "network" rfl
  · have h :=
      ((claim_C8_web_search okProvider "ai hacks" 3).2
        [⟨some "T", some "B", none⟩] rfl).1 (by decide)
    simpa using h

/-- Claim C10 (confirmed): when the classification service returns
syntactically valid JSON that is not an object (a list, a string, ...)
and the fetch was nonempty, `grok_process_raw_data` returns that value
unchanged rather than the fallback, the projector then raises at
`categorized.values()`, and the `/run_cycle` invocation answers with the
`{'error': ...}` failure response instead of an OutputBundle. -/
theorem claim_C10_non_object_response
    (provider : String → Nat → Except String (List RawRecord))
    (ps : List Profile) (v : JVal) (hv : v.isObj = false)
    (hraw : web_search provider theQuery 10 ≠ []) :
    grok_process_raw_data (some v) (web_search provider theQuery 10) = v ∧
      (run_automation_cycle provider (some v) ps).isFailure = true := by
  have hne : (web_search provider theQuery 10).isEmpty = false := by
    cases hl : web_search provider theQuery 10 with
    | nil => exact absurd hl hraw
    | cons a t => rfl
  have hg : grok_process_raw_data (some v) (web_search provider theQuery 10)
      = v := by
    simp [grok_process_raw_data, hne]
  refine ⟨hg, ?_⟩
  cases v
  case obj kvs => simp [JVal.isObj] at hv
  all_goals
    simp [run_automation_cycle, hg, generate_outputs_dyn,
      CycleResponse.isFailure]

/-- Witness for claim C10: with a provider returning one good record and
the service responding with the JSON list `[]`, the categorizer hands the
list through and the endpoint answers with the error object. -/
theorem claim_C10_witness :
    grok_process_raw_data (some (JVal.arr []))
        (web_search okProvider theQuery 10) = JVal.arr [] ∧
      (run_automation_cycle okProvider (some (JVal.arr [])) []).isFailure
        = true :=
  claim_C10_non_object_response okProvider [] (JVal.arr []) rfl (by decide)

/-- Claim C9 (confirmed): profiles are processed in input order against
the accumulating knowledge dict, not a fixed label set. First conjunct:
the final key list is computed by the spec-side `keyModel`, which adds a
profile's id exactly when its interest is a key of the accumulated key
list — the mapping's original keys plus the ids of earlier-matched
profiles. Second conjunct, concretely: a profile whose id is the label
"productivity" overwrites that base entry in place (its value becomes the
health bucket's snippets, here `[]`, and the key count stays 3 at that
point); the next profile, interested in "productivity", is then assigned
the overwritten value `[]` — the mapping's value at assignment time, not
the original base bucket value `["s1"]`; and the last profile, whose
interest "u1" is an earlier profile's id, still receives an entry. -/
theorem claim_C9_accumulating_mapping (c : Buckets) (ps : List Profile) :
    keysList (coaching_bot c ps) = keyModel (keysList c) ps ∧
      coaching_bot exStdBuckets exOverwriteProfiles
        = [("productivity", []), ("health", []), ("creativity", []),
            ("u1", []), ("u2", [])] := by
  constructor
  · rw [coaching_bot, keysList_applyProfiles, keysList_baseKnowledge]
  · decide

/-- Claim C2 is refuted as stated: with a well-formed CategorizedResult
(keys exactly the three labels, standard order), a profile whose interest
is "u1" — the id of an earlier-matched profile, not one of the three
fixed labels — still receives a coaching_bot entry, because the loop
tests membership against the accumulating dict rather than the fixed
label set. -/
theorem claim_C2_counterexample :
    containsKey (coaching_bot exStdBuckets exChainProfiles) "u2" = true ∧
      keysList exStdBuckets = ["productivity", "health", "creativity"] ∧
      ("u1" : String) ≠ "productivity" ∧ ("u1" : String) ≠ "health" ∧
      ("u1" : String) ≠ "creativity" :=
  ⟨by decide, rfl, by decide, by decide, by decide⟩

/-- Claim C2 as amended (proved): under the non-interference conditions
the counterexample shows to be necessary — profile ids are not category
keys, are pairwise distinct, and never occur as an interest — the
coaching_bot view contains an entry keyed by profile.id iff that
profile's interest is one of the three fixed labels, and the entry's
value is the snippet sequence of the base bucket named by the
interest. -/
theorem claim_C2_amended_coaching_bot (c : Buckets) (ps : List Profile)
    (hkeys : keysList c = ["productivity", "health", "creativity"])
    (hfresh : ∀ p ∈ ps, containsKey c p.id = false)
    (hni : ∀ p ∈ ps, ∀ q ∈ ps, p.id ≠ q.interest)
    (hnd : (ps.map Profile.id).Nodup) :
    ∀ p ∈ ps,
      (containsKey (coaching_bot c ps) p.id = true ↔
        (p.interest = "productivity" ∨ p.interest = "health" ∨
          p.interest = "creativity")) ∧
        (∀ hits, lookup c p.interest = some hits →
          lookup (coaching_bot c ps) p.id = some (hits.map Hit.snippet)) := by
  intro p hp
  have hno : ∀ q ∈ ps, containsKey (baseKnowledge c) q.id = false := by
    intro q hq
    rw [containsKey_eq_memB, keysList_baseKnowledge, ← containsKey_eq_memB]
    exact hfresh q hq
  have main := applyProfiles_value_spec ps (baseKnowledge c) hno hni hnd p hp
  constructor
  · rw [coaching_bot, main.1, containsKey_eq_memB, keysList_baseKnowledge,
      hkeys]
    simp only [memB_cons, memB, Bool.or_eq_true, decide_eq_true_eq]
    constructor
    · rintro (h | h | h | h)
      · exact Or.inl h.symm
      · exact Or.inr (Or.inl h.symm)
      · exact Or.inr (Or.inr h.symm)
      · simp at h
    · rintro (h | h | h)
      · exact Or.inl h.symm
      · exact Or.inr (Or.inl h.symm)
      · exact Or.inr (Or.inr (Or.inl h.symm))
  · intro hits hv
    rw [coaching_bot]
    refine main.2 (hits.map Hit.snippet) ?_
    rw [lookup_baseKnowledge, hv]
    rfl

/-- Witness for the amended claim C2 at a concrete input: two profiles
with fresh distinct ids, the first interested in "productivity" (gets the
bucket's snippets), over the standard three-label categorized dict. -/
theorem claim_C2_amended_coaching_bot_witness :
    (containsKey (coaching_bot exStdBuckets exGoodProfiles) "u1" = true ↔
      (("productivity" : String) = "productivity" ∨
        ("productivity" : String) = "health" ∨
        ("productivity" : String) = "creativity")) ∧
      lookup (coaching_bot exStdBuckets exGoodProfiles) "u1" = some ["s1"] := by
  have h := claim_C2_amended_coaching_bot exStdBuckets exGoodProfiles rfl
    (by decide) (by decide) (by decide) ⟨"u1", "productivity"⟩ (by decide)
  exact ⟨h.1, by simpa using h.2 [⟨"T", "s1"⟩] rfl⟩

end Contentomation
